import Mathlib

/-! Verification of the core of `cargo-bisect-rustc` (a bisection tool for the
Rust compiler) against its natural-language specification.

The development is a shallow embedding of `src/main.rs`:

* calendar dates (`chrono::Date<Utc>`) are embedded as integers counting days
  since 1970-01-01, via the standard civil-calendar bijection
  `days_from_civil`; subtracting `Duration::days(n)` becomes integer
  subtraction, and the order on dates becomes the order on `Int`;
* timestamps (`chrono::DateTime<Utc>`) are embedded as integers counting
  seconds since the epoch;
* subprocess probing (install + test of one toolchain) is an explicit
  function parameter `probe`, returning the installation/test result;
* fallible Rust functions returning `Result<T, Error>` become `Except`.

Definitions are translated from the source; the handful of definitions that
model library code or modules that are not part of the translated source are
marked `Modelled from the spec:` in their doc comment.
-/

namespace BisectRustc

/-! Section: outcome classifier, from `Config::default_outcome_of_output`. -/

/-- Type `TestOutcome` from the `toolchains` module: the verdict of running the
user's test against one toolchain. -/
inductive TestOutcome where
  | baseline
  | regressed
deriving DecidableEq, Repr

/-- Type `Satisfies` from the `least_satisfying` module: three-valued probe
outcome. -/
inductive Satisfies where
  | yes
  | no
  | unknown
deriving DecidableEq, Repr

/-- The five regression semantics of `enum OutputProcessingMode`. -/
inductive OutputProcessingMode where
  | RegressOnErrorStatus
  | RegressOnSuccessStatus
  | RegressOnIceAlone
  | RegressOnNotIce
  | RegressOnNonCleanError
deriving DecidableEq, Repr

/-- A completed subprocess result (`process::Output`): exit-status success
flag and the captured streams.  The streams are carried as the lossy-UTF-8
decodings (`String::from_utf8_lossy`) that
`Config::default_outcome_of_output` itself computes from the raw bytes. -/
structure ProcessOutput where
  success : Bool
  stdout : String
  stderr : String
deriving DecidableEq

/-- The ICE marker scan `saw_ice` inside `default_outcome_of_output`:
`stderr_utf8.contains("error: internal compiler error")`, i.e. substring
containment on the decoded stderr. -/
def saw_ice (stderr : String) : Bool :=
  decide (("error: internal compiler error").data <:+: stderr.data)

/-- Translation of `Config::default_outcome_of_output` (src/main.rs:233-282): the
classification match on `(output_processing_mode, status.success())`,
with `saw_ice` consulted by the three stderr-sensitive modes. -/
def default_outcome_of_output (mode : OutputProcessingMode)
    (output : ProcessOutput) : TestOutcome :=
  match mode, output.success with
  | .RegressOnErrorStatus, true => .baseline
  | .RegressOnErrorStatus, false => .regressed
  | .RegressOnSuccessStatus, true => .regressed
  | .RegressOnSuccessStatus, false => .baseline
  | .RegressOnIceAlone, _ =>
      if saw_ice output.stderr then .regressed else .baseline
  | .RegressOnNotIce, _ =>
      if saw_ice output.stderr then .baseline else .regressed
  | .RegressOnNonCleanError, true => .regressed
  | .RegressOnNonCleanError, false =>
      if saw_ice output.stderr then .regressed else .baseline

/-- Translation of `Config::output_processing_mode` (src/main.rs:284-293).  The Rust
function panics on an unknown `--regress` setting; the panic is embedded as
`none`. -/
def output_processing_mode (regress : String) : Option OutputProcessingMode :=
  match regress with
  | "error" => some .RegressOnErrorStatus
  | "non-error" => some .RegressOnNonCleanError
  | "ice" => some .RegressOnIceAlone
  | "non-ice" => some .RegressOnNotIce
  | "success" => some .RegressOnSuccessStatus
  | _ => none

/-! Section: calendar dates. -/

/-- A civil calendar date, as produced by parsing `YYYY-MM-DD`
(`chrono::NaiveDate` restricted to the nonnegative years reachable by a
four-digit year). -/
structure NaiveDate where
  year : Nat
  month : Nat
  day : Nat
deriving DecidableEq, Repr

/-- Proleptic Gregorian leap-year rule (as used by `chrono`). -/
def is_leap_year (y : Nat) : Bool :=
  y % 4 == 0 && (y % 100 != 0 || y % 400 == 0)

/-- Number of days in a month of the proleptic Gregorian calendar. -/
def days_in_month (y m : Nat) : Nat :=
  if m = 2 then (if is_leap_year y then 29 else 28)
  else if m = 4 ∨ m = 6 ∨ m = 9 ∨ m = 11 then 30
  else 31

/-- The civil-calendar bijection: day count since 1970-01-01 of the date
`y-m-d` (valid for `1 ≤ y`).  This is the standard `days_from_civil`
algorithm and embeds `chrono::Date<Utc>` values as integers, so that
`date - Duration::days(n)` becomes subtraction and the calendar order
becomes the integer order. -/
def days_from_civil (y m d : Nat) : Int :=
  let yAdj := if m ≤ 2 then y - 1 else y
  let era := yAdj / 400
  let yoe := yAdj % 400
  let mp := if 2 < m then m - 3 else m + 9
  let doy := (153 * mp + 2) / 5 + d - 1
  let doe := yoe * 365 + yoe / 4 - yoe / 100 + doy
  (era * 146097 + doe : Int) - 719468

/-- Day count of a `NaiveDate`. -/
def NaiveDate.toDays (d : NaiveDate) : Int :=
  days_from_civil d.year d.month d.day

/-! Section: bound parsing, from `Bound::from_str`. -/

/-- The `enum Bound` (src/main.rs:164-168): a commit reference or a calendar
date. -/
inductive Bound where
  | commit (sha : String)
  | date (d : NaiveDate)
deriving DecidableEq

/-- Whether a character is an ASCII decimal digit (codepoint between 48,
`0`, and 57, `9`). -/
def char_is_digit (c : Char) : Bool :=
  decide (48 ≤ c.toNat ∧ c.toNat ≤ 57)

/-- Numeric value of a decimal digit character. -/
def digit_val (c : Char) : Nat := c.toNat - 48

/-- Decimal digit character of a value below ten. -/
def digit_char (n : Nat) : Char := Char.ofNat (n + 48)

/-- Modelled from the spec: `chrono::NaiveDate::parse_from_str(s, "%Y-%m-%d")`
is external library code (the `chrono` crate, not under the translated
source).  Per the spec's words — "A bound argument parseable as
`YYYY-MM-DD` is a date" — the format is modelled strictly: a four-digit
zero-padded year, two-digit zero-padded month and day separated by `-`,
denoting a valid proleptic Gregorian date. -/
def parse_ymd (s : String) : Option NaiveDate :=
  match s.data with
  | [y1, y2, y3, y4, h1, m1, m2, h2, d1, d2] =>
    if char_is_digit y1 ∧ char_is_digit y2 ∧ char_is_digit y3 ∧
       char_is_digit y4 ∧ h1 = '-' ∧ char_is_digit m1 ∧ char_is_digit m2 ∧
       h2 = '-' ∧ char_is_digit d1 ∧ char_is_digit d2 then
      let y := 1000 * digit_val y1 + 100 * digit_val y2 + 10 * digit_val y3 + digit_val y4
      let m := 10 * digit_val m1 + digit_val m2
      let d := 10 * digit_val d1 + digit_val d2
      if 1 ≤ m ∧ m ≤ 12 ∧ 1 ≤ d ∧ d ≤ days_in_month y m then
        some ⟨y, m, d⟩
      else none
    else none
  | _ => none

/-- Modelled from the spec: formatting a date with the `YYYY_MM_DD`
format string (`date.format("%Y-%m-%d")`, `chrono` library code): the
zero-padded four-digit year and two-digit month and day. -/
def format_ymd (d : NaiveDate) : String :=
  ⟨[digit_char (d.year / 1000 % 10), digit_char (d.year / 100 % 10),
    digit_char (d.year / 10 % 10), digit_char (d.year % 10), '-',
    digit_char (d.month / 10 % 10), digit_char (d.month % 10), '-',
    digit_char (d.day / 10 % 10), digit_char (d.day % 10)]⟩

/-- Translation of `impl FromStr for Bound` (src/main.rs:176-184): parsing never fails —
a string that parses as `%Y-%m-%d` becomes `Bound::Date`, anything else
becomes `Bound::Commit` verbatim. -/
def bound_from_str (s : String) : Bound :=
  match parse_ymd s with
  | some d => .date d
  | none => .commit s

/-! Section: the nightly-finder iterator `NightlyFinderIter`. -/

/-- One step of `NightlyFinderIter::next` (src/main.rs:768-788): from the
iterator state (`start_date`, `current_date`), the next emitted date.
`current_distance.num_days()` is exact on day-precision dates, hence plain
subtraction. -/
def nightly_finder_next (start_date current_date : Int) : Int :=
  let current_distance := start_date - current_date
  let jump_length : Int :=
    if current_distance < 7 then 2
    else if current_distance < 49 then 7
    else 14
  current_date - jump_length

/-- The sequence emitted by `NightlyFinderIter::new(start_date)`:
element `n` is the result of the `(n+1)`-st call to `next`. -/
def nightly_finder_seq (start_date : Int) : Nat → Int
  | 0 => nightly_finder_next start_date start_date
  | n + 1 => nightly_finder_next start_date (nightly_finder_seq start_date n)

/-- Distance behind the anchor of the `n`-th emitted date
(`nightly_finder_seq` is the anchor minus this offset). -/
def nightly_offsets : Nat → Int
  | 0 => 2
  | n + 1 =>
    nightly_offsets n +
      (if nightly_offsets n < 7 then 2
       else if nightly_offsets n < 49 then 7
       else 14)

/-! Section: toolchains and `std_targets` construction. -/

/-- The `enum ToolchainSpec` from the `toolchains` module: a nightly (by date)
or a CI build (by commit, with the `alt` flavor flag). -/
inductive ToolchainSpec where
  | nightly (date : Int)
  | ci (commit : String) (alt : Bool)
deriving DecidableEq, Inhabited, Repr

/-- The `struct Toolchain` from the `toolchains` module: a spec, the host
triple, and the list of std target triples to install. -/
structure Toolchain where
  spec : ToolchainSpec
  host : String
  std_targets : List String
deriving DecidableEq, Inhabited

/-- Rust's `Vec::sort` on strings: a stable sort by the total
lexicographic order (on UTF-8 bytes, which for strings coincides with the
codepoint order used by Lean's `String` order). -/
def rust_sort (l : List String) : List String :=
  l.insertionSort (· ≤ ·)

/-- Rust's `Vec::dedup`: removes consecutive repeated elements. -/
def rust_dedup {α : Type} [DecidableEq α] (l : List α) : List α :=
  l.destutter (· ≠ ·)

/-- The `Toolchain` construction pattern shared by every core site
(`install`, the `bisect_nightlies` walk and end-confirmation,
`toolchains_between`, `bisect_ci_in_commits`):
`std_targets: vec![host, target]` followed by `sort` and `dedup`. -/
def mk_toolchain (spec : ToolchainSpec) (host target : String) : Toolchain :=
  { spec := spec, host := host,
    std_targets := rust_dedup (rust_sort [host, target]) }

/-! Section: probing a toolchain, from `install_and_test`. -/

/-- The result of installing and testing one toolchain, as observed by the
callers of `install_and_test` (src/main.rs:837-865): a test outcome on
successful install, or an install error, which is either
`InstallError::NotFound` or any other kind. -/
inductive InstallTestResult where
  | success (outcome : TestOutcome)
  | notFound
  | otherError
deriving DecidableEq, Repr

/-- The `TestOutcome → Satisfies` translation inside `install_and_test`
and `print_results`: a successful (baseline) build does not satisfy the
search, a regressed one does. -/
def satisfies_of_outcome : TestOutcome → Satisfies
  | .baseline => .no
  | .regressed => .yes

/-! Section: bound classification in `Config::from_args` (src/main.rs:460-487). -/

/-- Result of the bound-handling part of `Config::from_args`: the possibly
rewritten bounds together with the computed `is_commit` flag, an error
(`bail!`), or a panic (`unreachable!()`). -/
inductive FromArgsResult where
  | ok (startArg endArg : Option Bound) (is_commit : Bool)
  | error (msg : String)
  | panicked
deriving DecidableEq

/-- The `is_commit` classification match on `(args.start, args.end)`
(src/main.rs:460-476). -/
def config_is_commit (s e : Option Bound) : Except String (Option Bool) :=
  match s, e with
  | some (.commit _), some (.commit _) => .ok (some true)
  | none, some (.commit _) => .ok (some true)
  | some (.commit _), none => .ok (some true)
  | some (.date _), some (.date _) => .ok (some false)
  | none, some (.date _) => .ok (some false)
  | some (.date _), none => .ok (some false)
  | none, none => .ok none
  | _, _ => .error "cannot take different types of bounds for start/end"

/-- The bound-handling tail of `Config::from_args` (src/main.rs:460-504):
classify the bounds, and when both are dates and `--by-commit` is set,
convert both to commits via `Bound::as_commit` (a network fetch, passed in
as `resolve`); the `(Some, Some)` match there has an `unreachable!()`
fallback arm, embedded as `panicked`. -/
def from_args_bounds (s e : Option Bound) (by_commit : Bool)
    (resolve : Bound → Except String Bound) : FromArgsResult :=
  match config_is_commit s e with
  | .error msg => .error msg
  | .ok ic =>
    if ic = some false ∧ by_commit then
      match s, e with
      | some b1, some b2 =>
        match resolve b1, resolve b2 with
        | .ok c1, .ok c2 => .ok (some c1) (some c2) (by_commit || ic == some true)
        | .error m, _ => .error m
        | _, .error m => .error m
      | _, _ => .panicked
    else .ok s e (by_commit || ic == some true)

/-- Translation of `check_bounds` (src/main.rs:507-520): when both bounds are dates, the
end must not be before the start. -/
def check_bounds (s e : Option Bound) : Except String Unit :=
  match s, e with
  | some (.date sd), some (.date ed) =>
    if ed.toDays < sd.toDays then
      .error "end should be after start"
    else .ok ()
  | _, _ => .ok ()

/-! Section: the nightly backward walk of `bisect_nightlies` (src/main.rs:903-1022). -/

/-- The hard floor `end_at` of the nightly walk: 2015-10-20, before which
`-std` packages were not shipped. -/
def end_at : Int := days_from_civil 2015 10 20

/-- The mutable state of the `while nightly_date > end_at` loop in
`bisect_nightlies`: the candidate date, the most recent failing date, and
the `NightlyFinderIter` state (its current and fixed start date). -/
structure WalkState where
  nightly_date : Int
  last_failure : Int
  iter_current : Int
  iter_start : Int
deriving DecidableEq, Repr

/-- How the backward-walk loop ended. -/
inductive WalkExit where
  | found (first_success last_failure : Int)
  | floorReached (last_failure : Int)
  | startReproduces (date : Int)
  | startNotFound (date : Int)
  | installError
deriving DecidableEq, Repr

/-- The backward-walk loop of `bisect_nightlies` (src/main.rs:929-980),
parameterized by the probe (the `install_and_test` of the nightly toolchain
for a date).  Returns the list of dates probed, in order, together with the
loop's exit.  Rules translated from the match on `install_and_test`:

* `Ok(r)` with `r = Satisfies::No` breaks with `first_success`;
* otherwise with `has_start` it bails; otherwise it records
  `last_failure` and advances `nightly_date` to the iterator's next date;
* `Err(NotFound)` steps `nightly_date` back one day (leaving the iterator
  untouched), but bails when `has_start`;
* any other install error aborts. -/
def nightly_walk (probe : Int → InstallTestResult) (has_start : Bool)
    (st : WalkState) : List Int × WalkExit :=
  if _h : end_at < st.nightly_date then
    match probe st.nightly_date with
    | .success outcome =>
      if satisfies_of_outcome outcome = .no then
        ([st.nightly_date], .found st.nightly_date st.last_failure)
      else if has_start then
        ([st.nightly_date], .startReproduces st.nightly_date)
      else
        let rest := nightly_walk probe has_start
          ⟨nightly_finder_next st.iter_start st.iter_current, st.nightly_date,
           nightly_finder_next st.iter_start st.iter_current, st.iter_start⟩
        (st.nightly_date :: rest.1, rest.2)
    | .notFound =>
      if has_start then
        ([st.nightly_date], .startNotFound st.nightly_date)
      else
        let rest := nightly_walk probe has_start
          ⟨st.nightly_date - 1, st.last_failure, st.iter_current, st.iter_start⟩
        (st.nightly_date :: rest.1, rest.2)
    | .otherError => ([st.nightly_date], .installError)
  else
    ([], .floorReached st.last_failure)
termination_by ((st.iter_current - end_at).toNat, (st.nightly_date - end_at).toNat)
decreasing_by
· have hle : nightly_finder_next st.iter_start st.iter_current ≤ st.iter_current - 2 := by
    unfold nightly_finder_next
    dsimp only
    split_ifs <;> omega
  simp only [Prod.lex_iff, true_and, eq_self_iff_true]
  generalize nightly_finder_next st.iter_start st.iter_current = n at hle ⊢
  omega
· simp only [Prod.lex_iff, true_and, eq_self_iff_true]
  omega

/-- The configuration consumed by `bisect_nightlies`, with its two
environment inputs made explicit: `Toolchain::default_nightly()` and
`Utc::now().date()` (both read by `get_end_date`). -/
structure NightlyConfig where
  startArg : Option Bound
  endArg : Option Bound
  alt : Bool
  default_nightly : Option Int
  today : Int
deriving DecidableEq

/-- Translation of `get_end_date` (src/main.rs:890-900). -/
def get_end_date (c : NightlyConfig) : Int :=
  match c.endArg with
  | some (.date d) => d.toDays
  | _ =>
    match c.default_nightly with
    | some d => d
    | none => c.today

/-- Translation of `get_start_date` (src/main.rs:882-888). -/
def get_start_date (c : NightlyConfig) : Int :=
  match c.startArg with
  | some (.date d) => d.toDays
  | _ => get_end_date c

/-- Translation of `toolchains_between` (src/main.rs:1024-1044), date skeleton: every
calendar day from `a` to `b` inclusive (each day becoming a
`mk_toolchain (.nightly date)` candidate). -/
def toolchains_between (a b : Int) : List Int :=
  if a ≤ b then a :: toolchains_between (a + 1) b else []
termination_by (b + 1 - a).toNat
decreasing_by
· omega

/-- The errors `bisect_nightlies` can fail with (each `bail!` /
propagated error), paired with their `bail!` format templates by
`nightly_error_template`. -/
inductive NightlyError where
  | altNotSupported
  | startReproduces (date : Int)
  | startNotFound (date : Int)
  | installError
  | noNightlyBuilt
  | endNotReproduce (date : Int)
deriving DecidableEq, Repr

/-- The `bail!` format template of each `bisect_nightlies` error (the
`\x7b\x7d` placeholder stands for the displayed toolchain). -/
def nightly_error_template : NightlyError → String
  | .altNotSupported => "cannot bisect nightlies with --alt: not supported"
  | .startReproduces _ => "the start of the range (\x7b\x7d) must not reproduce the regression"
  | .startNotFound _ => "could not find \x7b\x7d"
  | .installError => "install failed"
  | .noNightlyBuilt => "could not find a nightly that built"
  | .endNotReproduce _ => "the end of the range (\x7b\x7d) does not reproduce the regression"

/-- A bisection result over the nightly candidates: the searched dates and
the found index. -/
structure NightlyBisectionResult where
  searched : List Int
  found : Nat
deriving DecidableEq, Repr

/-- Translation of `bisect_nightlies` (src/main.rs:903-1022): the `--alt` guard, the
backward walk, the `first_success` check, the end-confirmation probe of
`last_failure`, and the final search over every day between `first_success`
and `last_failure`.

Returns the dates probed together with the result.  The final search
(`bisect_to_regression` over `least_satisfying`, a module outside the
translated source) probes only elements of the candidate sequence and,
mapping probe errors to `Satisfies::Unknown`, always returns an index; it
is modelled by the `search` parameter, and every candidate date is
conservatively recorded as probed. -/
def bisect_nightlies (c : NightlyConfig) (probe : Int → InstallTestResult)
    (search : List Int → (Int → InstallTestResult) → Nat) :
    List Int × Except NightlyError NightlyBisectionResult :=
  if c.alt then ([], .error .altNotSupported)
  else
    let nightly_date := get_start_date c
    let last_failure := get_end_date c
    let has_start := c.startArg.isSome
    let w := nightly_walk probe has_start
      ⟨nightly_date, last_failure, nightly_date, nightly_date⟩
    match w.2 with
    | .startReproduces d => (w.1, .error (.startReproduces d))
    | .startNotFound d => (w.1, .error (.startNotFound d))
    | .installError => (w.1, .error .installError)
    | .floorReached _ => (w.1, .error .noNightlyBuilt)
    | .found first_success lf =>
      match probe lf with
      | .success o =>
        if satisfies_of_outcome o = .no then
          (w.1 ++ [lf], .error (.endNotReproduce lf))
        else
          let toolchains := toolchains_between first_success lf
          (w.1 ++ lf :: toolchains, .ok ⟨toolchains, search toolchains probe⟩)
      | .notFound => (w.1 ++ [lf], .error .installError)
      | .otherError => (w.1 ++ [lf], .error .installError)

/-! Section: the CI phase, from `bisect_ci_in_commits` (src/main.rs:1101-1185). -/

/-- The `struct Commit` (src/main.rs:33-38); the `DateTime<Utc>` field embedded
as seconds since the epoch. -/
structure Commit where
  sha : String
  date : Int
  summary : String
deriving DecidableEq

/-- Model of `chrono::Duration::num_days`: the number of whole days in a duration
given in seconds, truncating toward zero. -/
def num_days (secs : Int) : Int :=
  if 0 ≤ secs then secs / 86400 else -((-secs) / 86400)

/-- The errors of `bisect_ci_in_commits`. -/
inductive CiError where
  | emptyCommitRange (startRef endRef : String)
  | endMismatch (expected actual : String)
  | startOfRangeReproduces
  | endOfRangeNotReproduce
  | installError
deriving DecidableEq

/-- A bisection result over CI toolchains. -/
structure CiBisectionResult where
  searched : List Toolchain
  found : Nat
deriving DecidableEq

/-- Translation of `bisect_ci_in_commits` (src/main.rs:1101-1185): keep only commits whose
age in whole days is below 167, fail on an empty remainder, check the last
sha against the requested end, build the CI toolchains, validate the two
endpoints, and search.  As in `bisect_nightlies`, the final search is the
`search` parameter and probes only candidate toolchains. -/
def bisect_ci_in_commits (host target : String) (alt : Bool) (now : Int)
    (startRef endRef : String) (commits : List Commit)
    (probe : Toolchain → InstallTestResult)
    (search : List Toolchain → (Toolchain → InstallTestResult) → Nat) :
    Except CiError CiBisectionResult :=
  let kept := commits.filter (fun c => num_days (now - c.date) < 167)
  if kept.isEmpty then .error (.emptyCommitRange startRef endRef)
  else
    let lastCheck : Except CiError Unit :=
      match kept.getLast? with
      | some c =>
        if endRef ≠ "origin/master" ∧ ¬(c.sha.startsWith endRef) then
          .error (.endMismatch endRef c.sha)
        else .ok ()
      | none => .ok ()
    match lastCheck with
    | .error e => .error e
    | .ok _ =>
      let toolchains := kept.map (fun c => mk_toolchain (.ci c.sha alt) host target)
      let validate : Except CiError Unit :=
        if toolchains.isEmpty then .ok ()
        else
          match probe toolchains.headI with
          | .success o₀ =>
            if satisfies_of_outcome o₀ = .yes then .error .startOfRangeReproduces
            else
              match probe toolchains.getLastI with
              | .success o₁ =>
                if satisfies_of_outcome o₁ = .no then .error .endOfRangeNotReproduce
                else .ok ()
              | _ => .error .installError
          | _ => .error .installError
      match validate with
      | .error e => .error e
      | .ok _ => .ok ⟨toolchains, search toolchains probe⟩

/-! Section: reporting and exit code, from `print_results` and `main`. -/

/-- What `print_results` (src/main.rs:631-677) ends up printing: the
regression banner, or — when the found toolchain is the last of the
searched sequence and its reinstall-and-retest does not come back
`Satisfies::Yes` — the early-return error message
"error: The regression was not found. Expanding the bounds may help.".
Out-of-range indexing (a Rust panic) is embedded as `panicked`. -/
inductive PrintOutcome where
  | reportedRegression
  | regressionNotFound
  | panicked
deriving DecidableEq, Repr

/-- The `Satisfies` computed by `print_results` from the re-install and
re-test of the found toolchain: install errors give `Unknown`. -/
def reconfirm_satisfies : InstallTestResult → Satisfies
  | .success o => satisfies_of_outcome o
  | .notFound => .unknown
  | .otherError => .unknown

/-- Translation of `print_results` (src/main.rs:631-677), with the reinstall-and-retest of
the found toolchain passed in as `reinstall`.  Note that the early-return
branch only prints; the function has no error channel back to `bisect`. -/
def print_results (searched : List Toolchain) (found : Nat)
    (reinstall : InstallTestResult) : PrintOutcome :=
  match searched[found]?, searched.getLast? with
  | some tf, some tl =>
    if tf = tl then
      match reconfirm_satisfies reinstall with
      | .yes => .reportedRegression
      | .no => .regressionNotFound
      | .unknown => .regressionNotFound
    else .reportedRegression
  | _, _ => .panicked

/-- The commit branch of `bisect` (src/main.rs:573-577): print the results
of a completed bisection, then return `Ok(())` — `print_results` cannot
change `bisect`'s return value. -/
def bisect_commit_path (searched : List Toolchain) (found : Nat)
    (reinstall : InstallTestResult) : PrintOutcome × Except CiError Unit :=
  (print_results searched found reinstall, Except.ok ())

/-- Translation of `main` (src/main.rs:1194-1205): exit code 0 when `run` returns `Ok`;
on `Err` the code of a downcast `ExitError`, else 1.  No code path in the
translated source constructs an `ExitError`, so every error exits 1. -/
def main_exit_code {ε : Type} (r : Except ε Unit) : Nat :=
  match r with
  | .ok _ => 0
  | .error _ => 1

/-! Section: theorems. -/

/-- C1: For every completed subprocess result and every
`OutputProcessingMode`, the classifier returns exactly the `TestOutcome` of
the five-mode table: `RegressOnErrorStatus` regresses iff the status is a
failure, `RegressOnSuccessStatus` iff it is a success,
`RegressOnIceAlone` iff the decoded stderr contains the ICE marker
(status ignored), `RegressOnNotIce` is `Baseline` iff the marker occurs
(status ignored), and `RegressOnNonCleanError` regresses on success status
and, on failure status, regresses iff the marker occurs. -/
theorem default_outcome_of_output_table (o : ProcessOutput) :
    (default_outcome_of_output .RegressOnErrorStatus o = .regressed ↔ o.success = false) ∧
    (default_outcome_of_output .RegressOnSuccessStatus o = .regressed ↔ o.success = true) ∧
    (default_outcome_of_output .RegressOnIceAlone o = .regressed ↔ saw_ice o.stderr = true) ∧
    (default_outcome_of_output .RegressOnNotIce o = .baseline ↔ saw_ice o.stderr = true) ∧
    (o.success = true → default_outcome_of_output .RegressOnNonCleanError o = .regressed) ∧
    (o.success = false →
      (default_outcome_of_output .RegressOnNonCleanError o = .regressed ↔
        saw_ice o.stderr = true)) := by
  obtain ⟨s, out, err⟩ := o
  cases s <;> cases hice : saw_ice err <;>
    simp [default_outcome_of_output, hice]

/-- Witness for C1 at a concrete output: a success status under
`RegressOnNonCleanError` is classified `Regressed`. -/
theorem default_outcome_of_output_table_witness :
    (⟨true, "", ""⟩ : ProcessOutput).success = true ∧
    default_outcome_of_output .RegressOnNonCleanError ⟨true, "", ""⟩ = .regressed :=
  ⟨rfl, (default_outcome_of_output_table ⟨true, "", ""⟩).2.2.2.2.1 rfl⟩

/-- C9: with `--by-commit` set and exactly one of the two bounds supplied,
that one a date, the bound handling of `Config::from_args` reaches the
`unreachable!()` arm and panics instead of returning a `Config` or an
error. -/
theorem from_args_by_commit_single_date_panics (d : NaiveDate)
    (resolve : Bound → Except String Bound) :
    from_args_bounds (some (.date d)) none true resolve = .panicked ∧
    from_args_bounds none (some (.date d)) true resolve = .panicked := by
  constructor <;> rfl

/-- C10: whenever `--alt` is set, `bisect_nightlies` fails immediately with
the error whose message is
`cannot bisect nightlies with --alt: not supported`, before any toolchain
is probed. -/
theorem bisect_nightlies_alt_bails (c : NightlyConfig)
    (probe : Int → InstallTestResult)
    (search : List Int → (Int → InstallTestResult) → Nat)
    (halt : c.alt = true) :
    bisect_nightlies c probe search = ([], .error .altNotSupported) ∧
    nightly_error_template .altNotSupported =
      "cannot bisect nightlies with --alt: not supported" := by
  constructor
  · simp [bisect_nightlies, halt]
  · rfl

/-- Witness for C10 at a concrete configuration with `--alt` set. -/
theorem bisect_nightlies_alt_bails_witness :
    ({ startArg := none, endArg := none, alt := true, default_nightly := none,
       today := 0 } : NightlyConfig).alt = true ∧
    bisect_nightlies
      { startArg := none, endArg := none, alt := true, default_nightly := none,
        today := 0 }
      (fun _ => .otherError) (fun _ _ => 0) = ([], .error .altNotSupported) :=
  ⟨rfl, (bisect_nightlies_alt_bails _ (fun _ => .otherError) (fun _ _ => 0) rfl).1⟩

/-- The emitted date sequence is the anchor minus `nightly_offsets`. -/
theorem nightly_finder_seq_eq (A : Int) (n : Nat) :
    nightly_finder_seq A n = A - nightly_offsets n := by
  induction n with
  | zero =>
    simp [nightly_finder_seq, nightly_finder_next, nightly_offsets]
  | succ n ih =>
    have hstep : nightly_offsets (n + 1) =
        nightly_offsets n +
          (if nightly_offsets n < 7 then 2
           else if nightly_offsets n < 49 then 7
           else 14) := rfl
    rw [nightly_finder_seq, ih, hstep]
    unfold nightly_finder_next
    dsimp only
    have h : A - (A - nightly_offsets n) = nightly_offsets n := by ring
    rw [h]
    ring

/-- From index 11 on, the offset behind the anchor is at least 49 days. -/
theorem nightly_offsets_ge (n : Nat) (h : 11 ≤ n) : 49 ≤ nightly_offsets n := by
  induction n with
  | zero => omega
  | succ n ih =>
    rcases Nat.lt_or_ge n 11 with hn | hn
    · have h10 : n = 10 := by omega
      subst h10
      decide
    · have h49 := ih hn
      rw [nightly_offsets]
      split_ifs <;> omega

/-- From index 11 on, each step adds 14 days to the offset. -/
theorem nightly_offsets_step (n : Nat) (h : 11 ≤ n) :
    nightly_offsets (n + 1) = nightly_offsets n + 14 := by
  have h49 := nightly_offsets_ge n h
  rw [nightly_offsets]
  split_ifs <;> omega

/-- C3: for every anchor `A`, the nightly-finder iterator emits exactly
`A−2, A−4, A−6, A−8, A−15, A−22, A−29, A−36, A−43, A−50, A−64, A−78` and
steps by 14 days thereafter; the sequence (being a total function on
indices) never ends. -/
theorem nightly_finder_iter_strides (A : Int) :
    (List.range 12).map (nightly_finder_seq A) =
      [A - 2, A - 4, A - 6, A - 8, A - 15, A - 22, A - 29, A - 36, A - 43,
       A - 50, A - 64, A - 78] ∧
    ∀ n : Nat, 11 ≤ n → nightly_finder_seq A (n + 1) = nightly_finder_seq A n - 14 := by
  constructor
  · have hr : List.range 12 = [0, 1, 2, 3, 4, 5, 6, 7, 8, 9, 10, 11] := by decide
    have h0 : nightly_offsets 0 = 2 := by decide
    have h1 : nightly_offsets 1 = 4 := by decide
    have h2 : nightly_offsets 2 = 6 := by decide
    have h3 : nightly_offsets 3 = 8 := by decide
    have h4 : nightly_offsets 4 = 15 := by decide
    have h5 : nightly_offsets 5 = 22 := by decide
    have h6 : nightly_offsets 6 = 29 := by decide
    have h7 : nightly_offsets 7 = 36 := by decide
    have h8 : nightly_offsets 8 = 43 := by decide
    have h9 : nightly_offsets 9 = 50 := by decide
    have h10 : nightly_offsets 10 = 64 := by decide
    have h11 : nightly_offsets 11 = 78 := by decide
    rw [hr]
    simp only [List.map_cons, List.map_nil, nightly_finder_seq_eq, h0, h1, h2,
      h3, h4, h5, h6, h7, h8, h9, h10, h11]
  · intro n hn
    rw [nightly_finder_seq_eq, nightly_finder_seq_eq, nightly_offsets_step n hn]
    ring

/-- Witness for C3 at anchor 0 and index 11: the 13th emitted date is 14
days before the 12th. -/
theorem nightly_finder_iter_strides_witness :
    11 ≤ 11 ∧ nightly_finder_seq 0 12 = nightly_finder_seq 0 11 - 14 :=
  ⟨by decide, (nightly_finder_iter_strides 0).2 11 (by decide)⟩

/-- Behavior of `Vec::sort` on the two-element `vec![host, target]`. -/
theorem rust_sort_pair (a b : String) :
    rust_sort [a, b] = if a ≤ b then [a, b] else [b, a] := by
  simp [rust_sort, List.insertionSort, List.orderedInsert]

/-- Behavior of `Vec::dedup` on a two-element vector. -/
theorem rust_dedup_pair (a b : String) :
    rust_dedup [a, b] = if a ≠ b then [a, b] else [a] := by
  simp [rust_dedup, List.destutter, List.destutter']

/-- Applying `mk_toolchain` with equal host and target: the two-element vector
dedups to a singleton. -/
theorem mk_toolchain_self (spec : ToolchainSpec) (h : String) :
    mk_toolchain spec h h = ⟨spec, h, [h]⟩ := by
  simp [mk_toolchain, rust_sort_pair, rust_dedup_pair]

/-- C8: every `Toolchain` value constructed by the core — install mode, the
nightly backward walk and end-confirmation, the per-day candidate
enumeration, and the CI commit mapping, all of which build their
`std_targets` by the `mk_toolchain` pattern `vec![host, target]` + `sort` +
`dedup` — has a `std_targets` list that is sorted, has no duplicates, and
draws its elements from the host triple and the configured target
triple. -/
theorem mk_toolchain_std_targets_sorted_nodup (spec : ToolchainSpec)
    (host target : String) :
    (mk_toolchain spec host target).std_targets.Sorted (· ≤ ·) ∧
    (mk_toolchain spec host target).std_targets.Nodup ∧
    ∀ x ∈ (mk_toolchain spec host target).std_targets, x = host ∨ x = target := by
  unfold mk_toolchain
  dsimp only
  rw [rust_sort_pair]
  rcases eq_or_ne host target with heq | hne
  · subst heq
    simp only [le_refl, if_true, rust_dedup_pair, ne_eq, not_true_eq_false,
      if_false]
    refine ⟨List.sorted_singleton _, List.nodup_singleton _, ?_⟩
    intro x hx
    simp only [List.mem_singleton] at hx
    exact Or.inl hx
  · by_cases hht : host ≤ target
    · rw [if_pos hht, rust_dedup_pair, if_pos hne]
      refine ⟨?_, ?_, ?_⟩
      · exact List.sorted_cons.2 ⟨by simpa using hht, List.sorted_singleton _⟩
      · simp [hne]
      · intro x hx
        rcases List.mem_cons.1 hx with h1 | h1
        · exact Or.inl h1
        · simp only [List.mem_singleton] at h1
          exact Or.inr h1
    · have hth : target ≤ host := le_of_not_le hht
      rw [if_neg hht, rust_dedup_pair, if_pos (Ne.symm hne)]
      refine ⟨?_, ?_, ?_⟩
      · exact List.sorted_cons.2 ⟨by simpa using hth, List.sorted_singleton _⟩
      · simp [Ne.symm hne]
      · intro x hx
        rcases List.mem_cons.1 hx with h1 | h1
        · exact Or.inr h1
        · simp only [List.mem_singleton] at h1
          exact Or.inl h1

/-- Witness for C8 at a concrete toolchain: the element `ha` of its
`std_targets` is one of the two configured triples. -/
theorem mk_toolchain_std_targets_sorted_nodup_witness :
    "ha" ∈ (mk_toolchain (.nightly 0) "ha" "ha").std_targets ∧
    ("ha" = "ha" ∨ "ha" = "ha") :=
  ⟨by simp [mk_toolchain_self],
   (mk_toolchain_std_targets_sorted_nodup (.nightly 0) "ha" "ha").2.2 "ha"
     (by simp [mk_toolchain_self])⟩

/-- C5 counterexample: a concrete completed bisection over a single CI
toolchain whose final re-confirmation comes back `Baseline`:
`print_results` emits the "regression was not found" message, yet `bisect`
still returns `Ok(())`, so the process exit code is 0 — not non-zero as
the claim states. -/
theorem print_results_exit_code_counterexample :
    (bisect_commit_path [mk_toolchain (.ci "a" false) "h" "h"] 0
        (.success .baseline)).1 = .regressionNotFound ∧
    main_exit_code
      (bisect_commit_path [mk_toolchain (.ci "a" false) "h" "h"] 0
        (.success .baseline)).2 = 0 := by
  rw [mk_toolchain_self]
  constructor <;> decide

/-- C5 (amended): whenever the found toolchain is the last element of the
searched sequence and its reinstall-and-retest does not yield a `Regressed`
outcome, `print_results` prints the "regression was not found" error and
returns early, but this cannot change `bisect`'s `Ok` return value, so the
process exit code is 0 (not non-zero). -/
theorem print_results_failed_reconfirm_exits_zero
    (searched : List Toolchain) (found : Nat) (reinstall : InstallTestResult)
    (t : Toolchain)
    (hf : searched[found]? = some t) (hl : searched.getLast? = some t)
    (hr : reconfirm_satisfies reinstall ≠ .yes) :
    (bisect_commit_path searched found reinstall).1 = .regressionNotFound ∧
    main_exit_code (bisect_commit_path searched found reinstall).2 = 0 := by
  unfold bisect_commit_path print_results main_exit_code
  rw [hf, hl]
  simp only [if_pos rfl]
  cases hs : reconfirm_satisfies reinstall <;> simp_all

/-- Witness for C5 at the concrete failing re-confirmation. -/
theorem print_results_failed_reconfirm_exits_zero_witness :
    ([mk_toolchain (.ci "a" false) "h" "h"] : List Toolchain)[0]? =
      some (mk_toolchain (.ci "a" false) "h" "h") ∧
    reconfirm_satisfies (.success .baseline) ≠ .yes ∧
    main_exit_code
      (bisect_commit_path [mk_toolchain (.ci "a" false) "h" "h"] 0
        (.success .baseline)).2 = 0 :=
  ⟨by simp [mk_toolchain_self], by decide,
   (print_results_failed_reconfirm_exits_zero
     [mk_toolchain (.ci "a" false) "h" "h"] 0 (.success .baseline)
     (mk_toolchain (.ci "a" false) "h" "h") (by simp [mk_toolchain_self])
     (by simp [mk_toolchain_self]) (by decide)).2⟩

/-- A digit character's value is at most nine. -/
theorem digit_val_le_nine {c : Char} (h : char_is_digit c = true) :
    digit_val c ≤ 9 := by
  simp only [char_is_digit, decide_eq_true_eq] at h
  unfold digit_val
  omega

/-- Rebuilding a digit character from its value is the identity. -/
theorem digit_char_digit_val {c : Char} (h : char_is_digit c = true) :
    digit_char (digit_val c) = c := by
  simp only [char_is_digit, decide_eq_true_eq] at h
  unfold digit_char digit_val
  have he : c.toNat - 48 + 48 = c.toNat := by omega
  rw [he, Char.ofNat_toNat]

/-- C7: bound parsing is total — every string parses, to `Bound::Date` when
it matches `%Y-%m-%d` and to `Bound::Commit` holding the string verbatim
otherwise — and every string accepted as a date formats back to the
original string. -/
theorem bound_from_str_total_roundtrip (s : String) :
    (∀ d, parse_ymd s = some d → bound_from_str s = .date d ∧ format_ymd d = s) ∧
    (parse_ymd s = none → bound_from_str s = .commit s) := by
  constructor
  · intro d hp
    refine ⟨by simp [bound_from_str, hp], ?_⟩
    obtain ⟨l⟩ := s
    rcases l with _ | ⟨c1, _ | ⟨c2, _ | ⟨c3, _ | ⟨c4, _ | ⟨c5, _ | ⟨c6, _ |
      ⟨c7, _ | ⟨c8, _ | ⟨c9, _ | ⟨c10, _ | ⟨c11, rest⟩⟩⟩⟩⟩⟩⟩⟩⟩⟩⟩
    all_goals simp only [parse_ymd] at hp
    all_goals try exact Option.noConfusion hp
    case cons.cons.cons.cons.cons.cons.cons.cons.cons.cons.nil =>
      split_ifs at hp with hdig hval
      obtain ⟨h1, h2, h3, h4, hsep1, h5, h6, hsep2, h7, h8⟩ := hdig
      obtain ⟨hm1, hm2, hd1, hd2⟩ := hval
      simp only [Option.some.injEq] at hp
      subst hp
      have b1 := digit_val_le_nine h1
      have b2 := digit_val_le_nine h2
      have b3 := digit_val_le_nine h3
      have b4 := digit_val_le_nine h4
      have b5 := digit_val_le_nine h5
      have b6 := digit_val_le_nine h6
      have b7 := digit_val_le_nine h7
      have b8 := digit_val_le_nine h8
      simp only [format_ymd]
      have e1 : (1000 * digit_val c1 + 100 * digit_val c2 +
          10 * digit_val c3 + digit_val c4) / 1000 % 10 = digit_val c1 := by
        omega
      have e2 : (1000 * digit_val c1 + 100 * digit_val c2 +
          10 * digit_val c3 + digit_val c4) / 100 % 10 = digit_val c2 := by
        omega
      have e3 : (1000 * digit_val c1 + 100 * digit_val c2 +
          10 * digit_val c3 + digit_val c4) / 10 % 10 = digit_val c3 := by
        omega
      have e4 : (1000 * digit_val c1 + 100 * digit_val c2 +
          10 * digit_val c3 + digit_val c4) % 10 = digit_val c4 := by
        omega
      have e5 : (10 * digit_val c6 + digit_val c7) / 10 % 10 = digit_val c6 := by
        omega
      have e6 : (10 * digit_val c6 + digit_val c7) % 10 = digit_val c7 := by
        omega
      have e7 : (10 * digit_val c9 + digit_val c10) / 10 % 10 = digit_val c9 := by
        omega
      have e8 : (10 * digit_val c9 + digit_val c10) % 10 = digit_val c10 := by
        omega
      rw [e1, e2, e3, e4, e5, e6, e7, e8, digit_char_digit_val h1,
        digit_char_digit_val h2, digit_char_digit_val h3,
        digit_char_digit_val h4, digit_char_digit_val h5,
        digit_char_digit_val h6, digit_char_digit_val h7,
        digit_char_digit_val h8, hsep1, hsep2]
  · intro hp
    simp [bound_from_str, hp]

/-- Witness for C7 at the concrete string `2018-07-30`. -/
theorem bound_from_str_total_roundtrip_witness :
    parse_ymd "2018-07-30" = some ⟨2018, 7, 30⟩ ∧
    bound_from_str "2018-07-30" = .date ⟨2018, 7, 30⟩ ∧
    format_ymd ⟨2018, 7, 30⟩ = "2018-07-30" := by
  have h := (bound_from_str_total_roundtrip "2018-07-30").1 ⟨2018, 7, 30⟩
    (by decide)
  exact ⟨by decide, h.1, h.2⟩

/-- Every date probed by the backward-walk loop is above the hard floor
(the loop only probes while `nightly_date > end_at`). -/
theorem nightly_walk_probes_above_floor (probe : Int → InstallTestResult)
    (has_start : Bool) (st : WalkState) :
    ∀ d ∈ (nightly_walk probe has_start st).1, end_at < d := by
  refine nightly_walk.induct probe has_start
    (fun s => ∀ d ∈ (nightly_walk probe has_start s).1, end_at < d)
    ?_ ?_ ?_ ?_ ?_ ?_ ?_ st
  · intro x h a hp hno d hd
    rw [nightly_walk] at hd
    simp [h, hp, hno] at hd
    exact hd ▸ h
  · intro x h a hp hno hhs d hd
    rw [nightly_walk] at hd
    simp [h, hp, hno, hhs] at hd
    exact hd ▸ h
  · intro x h a hp hno hhs ih d hd
    have hb : has_start = false := (Bool.not_eq_true _) ▸ hhs
    subst hb
    rw [nightly_walk] at hd
    simp [h, hp, hno] at hd
    rcases hd with rfl | hd
    · exact h
    · exact ih d hd
  · intro x h hp hhs d hd
    rw [nightly_walk] at hd
    simp [h, hp, hhs] at hd
    exact hd ▸ h
  · intro x h hp hhs ih d hd
    have hb : has_start = false := (Bool.not_eq_true _) ▸ hhs
    subst hb
    rw [nightly_walk] at hd
    simp [h, hp] at hd
    rcases hd with rfl | hd
    · exact h
    · exact ih d hd
  · intro x h hp d hd
    rw [nightly_walk] at hd
    simp [h, hp] at hd
    exact hd ▸ h
  · intro x h d hd
    rw [nightly_walk] at hd
    simp [h] at hd

/-- When the walk breaks with `first_success`, that date was probed, its
probe built (`Satisfies::No`), the loop was entered, and the final
`last_failure` is either the initial one or a probed (above-floor) date. -/
theorem nightly_walk_found_spec (probe : Int → InstallTestResult)
    (has_start : Bool) (st : WalkState) :
    ∀ fs lf, (nightly_walk probe has_start st).2 = .found fs lf →
      fs ∈ (nightly_walk probe has_start st).1 ∧
      probe fs = .success .baseline ∧
      end_at < st.nightly_date ∧
      (lf = st.last_failure ∨ end_at < lf) := by
  refine nightly_walk.induct probe has_start
    (fun s => ∀ fs lf, (nightly_walk probe has_start s).2 = .found fs lf →
      fs ∈ (nightly_walk probe has_start s).1 ∧
      probe fs = .success .baseline ∧
      end_at < s.nightly_date ∧
      (lf = s.last_failure ∨ end_at < lf))
    ?_ ?_ ?_ ?_ ?_ ?_ ?_ st
  · intro x h a hp hno fs lf hf
    cases a
    case regressed => simp [satisfies_of_outcome] at hno
    case baseline =>
      rw [nightly_walk] at hf
      simp [h, hp, satisfies_of_outcome] at hf
      obtain ⟨h1, h2⟩ := hf
      subst h1
      subst h2
      refine ⟨?_, hp, h, Or.inl rfl⟩
      rw [nightly_walk]
      simp [h, hp, satisfies_of_outcome]
  · intro x h a hp hno hhs fs lf hf
    rw [nightly_walk] at hf
    simp [h, hp, hno, hhs] at hf
  · intro x h a hp hno hhs ih fs lf hf
    have hb : has_start = false := (Bool.not_eq_true _) ▸ hhs
    subst hb
    rw [nightly_walk] at hf
    simp [h, hp, hno] at hf
    obtain ⟨hmem, hprobe, hlt, hlf⟩ := ih fs lf hf
    refine ⟨?_, hprobe, h, ?_⟩
    · rw [nightly_walk]
      simp [h, hp, hno]
      exact Or.inr hmem
    · right
      rcases hlf with hlf | hlf
      · rw [hlf]
        exact h
      · exact hlf
  · intro x h hp hhs fs lf hf
    rw [nightly_walk] at hf
    simp [h, hp, hhs] at hf
  · intro x h hp hhs ih fs lf hf
    have hb : has_start = false := (Bool.not_eq_true _) ▸ hhs
    subst hb
    rw [nightly_walk] at hf
    simp [h, hp] at hf
    obtain ⟨hmem, hprobe, hlt, hlf⟩ := ih fs lf hf
    refine ⟨?_, hprobe, h, ?_⟩
    · rw [nightly_walk]
      simp [h, hp]
      exact Or.inr hmem
    · rcases hlf with hlf | hlf
      · exact Or.inl hlf
      · exact Or.inr hlf
  · intro x h hp fs lf hf
    rw [nightly_walk] at hf
    simp [h, hp] at hf
  · intro x h fs lf hf
    rw [nightly_walk] at hf
    simp [h] at hf

/-- Every candidate emitted by `toolchains_between` lies in `[a, b]`. -/
theorem toolchains_between_mem (a b : Int) :
    ∀ d ∈ toolchains_between a b, a ≤ d ∧ d ≤ b := by
  refine toolchains_between.induct (fun a b => ∀ d ∈ toolchains_between a b, a ≤ d ∧ d ≤ b) ?_ ?_ a b
  · intro a b hab ih d hd
    rw [toolchains_between] at hd
    simp [hab] at hd
    rcases hd with rfl | hd
    · exact ⟨le_refl _, hab⟩
    · obtain ⟨h1, h2⟩ := ih d hd
      exact ⟨by omega, h2⟩
  · intro a b hab d hd
    rw [toolchains_between] at hd
    simp [hab] at hd

/-- Under `check_bounds` and a wall clock past the floor, if the walk's
seed date is above the floor then so is the end date. -/
theorem get_end_date_above_floor (c : NightlyConfig)
    (hck : check_bounds c.startArg c.endArg = .ok ())
    (htoday : end_at < c.today)
    (hdn : ∀ d, c.default_nightly = some d → end_at < d)
    (hstart : end_at < get_start_date c) :
    end_at < get_end_date c := by
  unfold get_start_date at hstart
  unfold check_bounds at hck
  unfold get_end_date at hstart ⊢
  rcases hce : c.endArg with _ | (sha | ed)
  · rcases hdf : c.default_nightly with _ | dd
    · exact htoday
    · exact hdn dd hdf
  · rcases hdf : c.default_nightly with _ | dd
    · exact htoday
    · exact hdn dd hdf
  · rcases hcs : c.startArg with _ | (sha2 | sd)
    · rw [hcs, hce] at hstart
      exact hstart
    · rw [hcs, hce] at hstart
      exact hstart
    · rw [hcs, hce] at hck hstart
      dsimp only at hck hstart ⊢
      split_ifs at hck with hlt
      omega

/-- C2: during the nightly phase no nightly dated at or before the hard
floor 2015-10-20 is ever probed — in particular a nightly dated 2015-10-19
is never probed — and if the backward walk reaches the floor without a
probe returning `Satisfies::No`, `bisect_nightlies` fails with an error
instead of returning a bisection result.  The hypotheses record that `run`
only calls `bisect_nightlies` after `check_bounds` passed, and that the
wall clock (and any installed default nightly) is later than 2015-10-20. -/
theorem bisect_nightlies_floor (c : NightlyConfig)
    (probe : Int → InstallTestResult)
    (search : List Int → (Int → InstallTestResult) → Nat)
    (hck : check_bounds c.startArg c.endArg = .ok ())
    (htoday : end_at < c.today)
    (hdn : ∀ d, c.default_nightly = some d → end_at < d) :
    (∀ d ∈ (bisect_nightlies c probe search).1, end_at < d) ∧
    days_from_civil 2015 10 19 ∉ (bisect_nightlies c probe search).1 ∧
    ((∀ d ∈ (bisect_nightlies c probe search).1,
        probe d ≠ .success .baseline) →
      ∃ e, (bisect_nightlies c probe search).2 = .error e) := by
  have hmain : (∀ d ∈ (bisect_nightlies c probe search).1, end_at < d) ∧
      ((∀ d ∈ (bisect_nightlies c probe search).1,
          probe d ≠ .success .baseline) →
        ∃ e, (bisect_nightlies c probe search).2 = .error e) := by
    unfold bisect_nightlies
    rcases halt : c.alt with _ | _
    · simp only [halt, Bool.false_eq_true, if_false]
      have hw1 := nightly_walk_probes_above_floor probe c.startArg.isSome
        ⟨get_start_date c, get_end_date c, get_start_date c, get_start_date c⟩
      have hw2 := nightly_walk_found_spec probe c.startArg.isSome
        ⟨get_start_date c, get_end_date c, get_start_date c, get_start_date c⟩
      rcases hexit : (nightly_walk probe c.startArg.isSome
        ⟨get_start_date c, get_end_date c, get_start_date c, get_start_date c⟩).2 with
        ⟨fs, lf⟩ | lf2 | d2 | d2 | _
      all_goals simp only [hexit]
      case found =>
        obtain ⟨hmem, hprobe, hlt, hlf⟩ := hw2 fs lf hexit
        have hlf2 : end_at < lf := by
          rcases hlf with hlf | hlf
          · subst hlf
            exact get_end_date_above_floor c hck htoday hdn hlt
          · exact hlf
        rcases hpl : probe lf with o | _ | _
        · by_cases hno : satisfies_of_outcome o = .no
          · simp only [hno, if_pos rfl, if_true]
            constructor
            · intro d hd
              rcases List.mem_append.1 hd with hd | hd
              · exact hw1 d hd
              · simp only [List.mem_singleton] at hd
                exact hd ▸ hlf2
            · intro _
              exact ⟨.endNotReproduce lf, rfl⟩
          · simp only [hno, if_neg, if_false]
            constructor
            · intro d hd
              rcases List.mem_append.1 hd with hd | hd
              · exact hw1 d hd
              · rcases List.mem_cons.1 hd with rfl | hd
                · exact hlf2
                · have hfs := hw1 fs hmem
                  have := (toolchains_between_mem fs lf d hd).1
                  omega
            · intro hne
              exact absurd hprobe
                (hne fs (List.mem_append_left _ hmem))
        · constructor
          · intro d hd
            rcases List.mem_append.1 hd with hd | hd
            · exact hw1 d hd
            · simp only [List.mem_singleton] at hd
              exact hd ▸ hlf2
          · intro _
            exact ⟨.installError, rfl⟩
        · constructor
          · intro d hd
            rcases List.mem_append.1 hd with hd | hd
            · exact hw1 d hd
            · simp only [List.mem_singleton] at hd
              exact hd ▸ hlf2
          · intro _
            exact ⟨.installError, rfl⟩
      case floorReached =>
        refine ⟨hw1, fun _ => ⟨.noNightlyBuilt, rfl⟩⟩
      case startReproduces =>
        refine ⟨hw1, fun _ => ⟨.startReproduces d2, rfl⟩⟩
      case startNotFound =>
        refine ⟨hw1, fun _ => ⟨.startNotFound d2, rfl⟩⟩
      case installError =>
        refine ⟨hw1, fun _ => ⟨.installError, rfl⟩⟩
    · simp only [halt, if_true]
      exact ⟨by simp, fun _ => ⟨.altNotSupported, rfl⟩⟩
  refine ⟨hmain.1, ?_, hmain.2⟩
  intro hmem
  have := hmain.1 _ hmem
  have hlt : days_from_civil 2015 10 19 < end_at := by decide
  omega

/-- Witness for C2 at a concrete July 2018 configuration. -/
theorem bisect_nightlies_floor_witness :
    check_bounds (some (.date ⟨2018, 7, 7⟩)) (some (.date ⟨2018, 7, 30⟩)) = .ok () ∧
    end_at < days_from_civil 2018 8 1 ∧
    (∀ d : Int, (none : Option Int) = some d → end_at < d) ∧
    days_from_civil 2015 10 19 ∉
      (bisect_nightlies
        { startArg := some (.date ⟨2018, 7, 7⟩),
          endArg := some (.date ⟨2018, 7, 30⟩), alt := false,
          default_nightly := none, today := days_from_civil 2018 8 1 }
        (fun _ => .success .baseline) (fun _ _ => 0)).1 :=
  ⟨rfl, by decide, ⟨(fun _ hd => nomatch hd),
   (bisect_nightlies_floor
     { startArg := some (.date ⟨2018, 7, 7⟩),
       endArg := some (.date ⟨2018, 7, 30⟩), alt := false,
       default_nightly := none, today := days_from_civil 2018 8 1 }
     (fun _ => .success .baseline) (fun _ _ => 0)
     rfl (by decide) (fun _ hd => nomatch hd)).2.1⟩⟩

/-- C4: during the nightly backward walk an install failure of kind
`NotFound` is recovered locally — the candidate date steps back one day
(iterator state untouched) and the walk retries — iff no start bound was
supplied; with a start bound the same `NotFound` aborts the walk with the
fatal could-not-find error, and install errors of any other kind always
abort. -/
theorem nightly_walk_notfound_recovery (probe : Int → InstallTestResult)
    (st : WalkState) (h : end_at < st.nightly_date) :
    (probe st.nightly_date = .notFound →
      nightly_walk probe false st =
        ((st.nightly_date ::
            (nightly_walk probe false
              ⟨st.nightly_date - 1, st.last_failure, st.iter_current,
               st.iter_start⟩).1),
         (nightly_walk probe false
            ⟨st.nightly_date - 1, st.last_failure, st.iter_current,
             st.iter_start⟩).2)) ∧
    (probe st.nightly_date = .notFound →
      nightly_walk probe true st = ([st.nightly_date], .startNotFound st.nightly_date)) ∧
    (∀ hs : Bool, probe st.nightly_date = .otherError →
      nightly_walk probe hs st = ([st.nightly_date], .installError)) := by
  refine ⟨?_, ?_, ?_⟩
  · intro hp
    rw [nightly_walk]
    simp [h, hp]
  · intro hp
    rw [nightly_walk]
    simp [h, hp]
  · intro hs hp
    rw [nightly_walk]
    simp [h, hp]

/-- Witness for C4: with a pinned start, a concrete `NotFound` probe aborts
the walk. -/
theorem nightly_walk_notfound_recovery_witness :
    end_at < end_at + 5 ∧
    nightly_walk (fun _ => .notFound) true ⟨end_at + 5, end_at + 9, end_at + 5, end_at + 5⟩ =
      ([end_at + 5], .startNotFound (end_at + 5)) :=
  ⟨by omega,
   (nightly_walk_notfound_recovery (fun _ => .notFound)
     ⟨end_at + 5, end_at + 9, end_at + 5, end_at + 5⟩
     (by show end_at < end_at + 5; omega)).2.1 rfl⟩

/-- The value of `num_days` is below 167 exactly on durations shorter than 167 days in
seconds. -/
theorem num_days_lt_iff (x : Int) : num_days x < 167 ↔ x < 167 * 86400 := by
  unfold num_days
  split_ifs with h <;> omega

/-- C6: in the CI phase every commit whose date is 167 days or more before
the current wall-clock time is removed from the candidate list before any
probing — every CI toolchain handed to the endpoint validation and the
search is built from a surviving commit less than 167 days old — and if no
commit survives the filter, the run fails with the empty-range error naming
the requested range. -/
theorem bisect_ci_in_commits_age_filter (host target : String) (alt : Bool)
    (now : Int) (startRef endRef : String) (commits : List Commit)
    (probe : Toolchain → InstallTestResult)
    (search : List Toolchain → (Toolchain → InstallTestResult) → Nat) :
    (∀ c ∈ commits.filter (fun c => num_days (now - c.date) < 167),
      now - c.date < 167 * 86400) ∧
    (∀ c ∈ commits, 167 * 86400 ≤ now - c.date →
      c ∉ commits.filter (fun c => num_days (now - c.date) < 167)) ∧
    (commits.filter (fun c => num_days (now - c.date) < 167) = [] →
      bisect_ci_in_commits host target alt now startRef endRef commits
          probe search =
        .error (.emptyCommitRange startRef endRef)) ∧
    (∀ br, bisect_ci_in_commits host target alt now startRef endRef commits
        probe search = .ok br →
      br.searched =
        (commits.filter (fun c => num_days (now - c.date) < 167)).map
          (fun c => mk_toolchain (.ci c.sha alt) host target) ∧
      ∀ t ∈ br.searched, ∃ c ∈ commits,
        t.spec = .ci c.sha alt ∧ now - c.date < 167 * 86400) := by
  have hage : ∀ c ∈ commits.filter (fun c => num_days (now - c.date) < 167),
      now - c.date < 167 * 86400 := by
    intro c hc
    rw [List.mem_filter] at hc
    have := hc.2
    simp only [decide_eq_true_eq] at this
    exact (num_days_lt_iff _).1 this
  refine ⟨hage, ?_, ?_, ?_⟩
  · intro c _ hold hmem
    have := hage c hmem
    omega
  · intro hemp
    simp only [bisect_ci_in_commits, hemp, List.isEmpty_nil, if_true]
  · intro br hok
    simp only [bisect_ci_in_commits] at hok
    split_ifs at hok with hemp htool
    all_goals repeat' split at hok
    all_goals try exact Except.noConfusion hok
    all_goals
      simp only [Except.ok.injEq] at hok
    all_goals
      subst hok
    all_goals
      refine ⟨rfl, ?_⟩
    all_goals
      intro t ht
    all_goals
      simp only [List.mem_map] at ht
    all_goals
      obtain ⟨c, hc, rfl⟩ := ht
    all_goals
      exact ⟨c, (List.mem_filter.1 hc).1, rfl, hage c hc⟩

/-- Witness for C6: with no commits at all the filter is empty and the CI
phase fails with the empty-range error. -/
theorem bisect_ci_in_commits_age_filter_witness :
    ([] : List Commit).filter (fun c => num_days ((0 : Int) - c.date) < 167) = [] ∧
    bisect_ci_in_commits "h" "t" false 0 "s" "e" []
        (fun _ => .otherError) (fun _ _ => 0) =
      .error (.emptyCommitRange "s" "e") :=
  ⟨rfl,
   (bisect_ci_in_commits_age_filter "h" "t" false 0 "s" "e" []
     (fun _ => .otherError) (fun _ _ => 0)).2.2.1 rfl⟩

end BisectRustc
